import Mathlib

/-!
Verification development for the scenario-based learning platform backend
(`advances_final`). The core under study is `ScenarioController.submit`
(src/api/src/controllers/UserController.js, `ScenarioController` class):
grading a user's answers against the ordered steps of a scenario, upserting
the best score, recomputing level completion, unlocking the next level, and
awarding a level badge at most once.

The controller, services and routes are present in the repository source and
are embedded directly.  The persistence repositories (AttemptRepository,
UserLevelRepository, BadgesRepository, UserBadgeRepository, and the
scenario/step lookups) are not part of the available source; their behaviour
is modelled from the specification's consumed-interface contracts (spec §3,
§4.2, §6) as operations on in-memory row lists.
-/

namespace ScenarioSubmit

/-- A scenario step row (`ScenarioStep`): belongs to a scenario, carries a
`step_order` that defines the grading sequence and a `correct_action`
(one of a fixed alphabet such as "A".."D" by the data-model invariant). -/
structure Step where
  scenario_id : Nat
  step_order : Int
  correct_action : String
deriving Repr, DecidableEq

/-- A scenario row: identifier and owning level. -/
structure Scenario where
  scenario_id : Nat
  level_id : Nat
deriving Repr, DecidableEq

/-- An attempt row (best-score record), conceptually keyed by
`(user_id, scenario_id)`. -/
structure Attempt where
  user_id : Nat
  scenario_id : Nat
  score : Nat
  all_correct : Bool
deriving Repr, DecidableEq

/-- A user-level progress row, keyed by `(user_id, level_id)`. -/
structure UserLevelRow where
  user_id : Nat
  level_id : Nat
  unlocked : Bool
  completed : Bool
deriving Repr, DecidableEq

/-- A badge definition row: one badge per level by convention. -/
structure Badge where
  badge_id : Nat
  level_id : Nat
  name : String
  description : String
  icon_url : String
deriving Repr, DecidableEq

/-- A user-badge award row, keyed by `(user_id, badge_id)`, unique per pair. -/
structure UserBadgeRow where
  user_id : Nat
  badge_id : Nat
deriving Repr, DecidableEq

/-- The persisted store: the six entity collections the submission workflow
reads and writes. -/
structure St where
  scenarios : List Scenario
  steps : List Step
  attempts : List Attempt
  userLevels : List UserLevelRow
  badges : List Badge
  userBadges : List UserBadgeRow
deriving Repr, DecidableEq

/-! ## Store operations

Modelled from the spec (§6 consumed interfaces); the repository classes
(`AttemptRepository`, `UserLevelRepository`, `BadgesRepository`,
`UserBadgeRepository`, `ScenarioRepository`, `ScenarioStepRepository`)
are not under the available source tree. -/

/-- Generic keyed upsert on a row list: if a row matching the key of `row`
exists, every matching row is overwritten with `row` in place; otherwise
`row` is appended.  `key row a` holds when `a` has the same key as `row`. -/
def upsertBy {α : Type} (key : α → α → Bool) (l : List α) (row : α) : List α :=
  if l.any (key row) then l.map (fun a => if key row a then row else a)
  else l ++ [row]

/-- Key match for attempt rows: same `(user_id, scenario_id)`. -/
def attemptKey (r a : Attempt) : Bool :=
  a.user_id == r.user_id && a.scenario_id == r.scenario_id

/-- Key match for user-level rows: same `(user_id, level_id)`. -/
def userLevelKey (r a : UserLevelRow) : Bool :=
  a.user_id == r.user_id && a.level_id == r.level_id

/-- Modelled from the spec: `findById(id) -> Scenario|absent`
(ScenarioRepository.findById, not under the source tree). -/
def getScenario (st : St) (id : Nat) : Option Scenario :=
  st.scenarios.find? (fun s => s.scenario_id == id)

/-- Modelled from the spec: `findByScenario(scenario_id) -> list of Step`,
order unspecified (the core sorts by `step_order` itself)
(ScenarioStepRepository, not under the source tree). -/
def getStepsByScenario (st : St) (id : Nat) : List Step :=
  st.steps.filter (fun s => s.scenario_id == id)

/-- Modelled from the spec: `upsertBestScore` writes the row for
`(user_id, scenario_id)` unconditionally (overwrite, not compare-and-keep-max;
spec §4.2 step 1: "the write always occurs (overwrite)")
(AttemptRepository.upsertBestScore, not under the source tree). -/
def upsertBestScore (l : List Attempt) (row : Attempt) : List Attempt :=
  upsertBy attemptKey l row

/-- Modelled from the spec: `countPerfectByUserInLevel(user_id, level_id)`
counts attempts by the user with `all_correct = true` whose scenario belongs
to the level (AttemptRepository, not under the source tree). -/
def countPerfectByUserInLevel (st : St) (u L : Nat) : Nat :=
  st.attempts.countP (fun a =>
    a.user_id == u && a.all_correct &&
      ((getScenario st a.scenario_id).map Scenario.level_id == some L))

/-- Modelled from the spec: `countScenariosInLevel(level_id)`
(ScenarioRepository.countByLevel, not under the source tree). -/
def countByLevel (st : St) (L : Nat) : Nat :=
  st.scenarios.countP (fun s => s.level_id == L)

/-- Modelled from the spec: `upsertProgress({user_id, level_id, unlocked,
completed})`, keyed by `(user_id, level_id)`
(UserLevelRepository.upsertProgress, not under the source tree). -/
def upsertProgress (l : List UserLevelRow) (row : UserLevelRow) : List UserLevelRow :=
  upsertBy userLevelKey l row

/-- Modelled from the spec: `findByLevel(level_id) -> Badge|absent`
(BadgesRepository.findByLevel, not under the source tree). -/
def findBadgeByLevel (l : List Badge) (L : Nat) : Option Badge :=
  l.find? (fun b => b.level_id == L)

/-- Modelled from the spec: `findByUserAndBadge(user_id, badge_id)`
(UserBadgeRepository.findByUserAndBadge, not under the source tree). -/
def findUserBadge (l : List UserBadgeRow) (u b : Nat) : Option UserBadgeRow :=
  l.find? (fun r => r.user_id == u && r.badge_id == b)

/-- Lookup of the user-level row for `(user_id, level_id)`. -/
def findUserLevel (l : List UserLevelRow) (u L : Nat) : Option UserLevelRow :=
  l.find? (fun r => r.user_id == u && r.level_id == L)

/-- Lookup of the attempt row for `(user_id, scenario_id)`. -/
def findAttempt (l : List Attempt) (u s : Nat) : Option Attempt :=
  l.find? (fun a => a.user_id == u && a.scenario_id == s)

/-! ## Grading engine

Embeds the grading block of `ScenarioController.submit`
(UserController.js lines 571-583). -/

/-- JavaScript `String.prototype.toUpperCase` restricted to the ASCII range
used by the answer alphabet. -/
def jsUpper (s : String) : String := String.mk (s.data.map Char.toUpper)

/-- One iteration of the grading loop: `picked` is
`(userAnswers[i] || "").toString().toUpperCase()` (out-of-range and empty
answers become `""`), `correct` is the step's `correct_action` uppercased,
and the step counts as correct iff `picked` is non-empty and equals
`correct` (`if (picked && picked === correct)`). -/
def stepCorrect (answers : List String) (i : Nat) (s : Step) : Bool :=
  let picked := jsUpper (answers.getD i "")
  let correct := jsUpper s.correct_action
  decide (picked ≠ "" ∧ picked = correct)

/-- The steps sorted by `step_order` ascending, as done in the controller by
`steps.sort((a, b) => Number(a.step_order) - Number(b.step_order))`
(a stable comparison sort). -/
def sortSteps (steps : List Step) : List Step :=
  List.insertionSort (fun a b => a.step_order ≤ b.step_order) steps

instance : IsTotal Step (fun a b => a.step_order ≤ b.step_order) :=
  ⟨fun a b => Int.le_total a.step_order b.step_order⟩

instance : IsTrans Step (fun a b => a.step_order ≤ b.step_order) :=
  ⟨fun _ _ _ h1 h2 => Int.le_trans h1 h2⟩

/-- Counts correct positions along a step list, grading the answer at
position `i` against the step at position `i` (the `forEach` loop body). -/
def countCorrect (answers : List String) : Nat → List Step → Nat
  | _, [] => 0
  | i, s :: rest =>
    (if stepCorrect answers i s then 1 else 0) + countCorrect answers (i + 1) rest

/-- The controller's `correctCount`: steps are sorted by `step_order` first,
then graded positionally against the answer list. -/
def gradeCount (steps : List Step) (answers : List String) : Nat :=
  countCorrect answers 0 (sortSteps steps)

/-- Fueled bit search: `bitLen n n` is `floor(log2 n)` for `n ≥ 1`
(the fuel argument only drives structural recursion; `fuel = n` always
suffices). -/
def bitLen : Nat → Nat → Nat
  | 0, _ => 0
  | fuel + 1, n => if n ≤ 1 then 0 else bitLen fuel (n / 2) + 1

/-- Round `N / D` to the nearest integer, ties to even — the IEEE 754
default rounding used by binary64 division and multiplication. -/
def rneNat (N D : Nat) : Nat :=
  if 2 * (N % D) < D then N / D
  else if D < 2 * (N % D) then N / D + 1
  else if N / D % 2 = 0 then N / D else N / D + 1

/-- Fueled search for the smallest `k ≥ 1` with `t ≤ c * 2^k` (used when
`c < t`): locates the binade of `c / t` below 1; `fuel = t` suffices. -/
def findK (c t : Nat) : Nat → Nat
  | 0 => 1
  | fuel + 1 => if t ≤ 2 * c then 1 else findK (2 * c) t fuel + 1

/-- Fueled search for the largest `e` with `t * 2^e ≤ c` (used when
`t ≤ c`): locates the binade of `c / t` at or above 1; `fuel = c`
suffices. -/
def findE (c t : Nat) : Nat → Nat
  | 0 => 0
  | fuel + 1 => if c < 2 * t then 0 else findE c (2 * t) fuel + 1

/-- A non-negative binary64 value `m * 2^e` represented exactly; the
exponent is unbounded, which is faithful here because every value in the
score pipeline lies well inside the normal range of doubles. -/
structure F where
  m : Nat
  e : Int
deriving Repr, DecidableEq

/-- IEEE 754 binary64 division `c / t` for `c, t ≥ 1`: the exact quotient
rounded to 53 significant bits, round-to-nearest ties-to-even.  The binade
`e` of `c / t` satisfies `2^e ≤ c/t < 2^(e+1)`, so the 53-bit grid has
spacing `2^(e-52)` and the rounded significand is
`rne(c / t / 2^(e-52))`. -/
def flDiv (c t : Nat) : F :=
  if t ≤ c then
    let e := findE c t c
    ⟨rneNat (c * 2 ^ 52) (t * 2 ^ e), (e : Int) - 52⟩
  else
    let k := findK c t t
    ⟨rneNat (c * 2 ^ (52 + k)) t, -((k : Int) + 52)⟩

/-- IEEE 754 binary64 multiplication by 100: the exact product
`100 * m * 2^e` rounded to 53 significant bits, round-to-nearest
ties-to-even (a product with at most 52 significant bits is exact). -/
def flMul100 (x : F) : F :=
  let M := 100 * x.m
  let j := bitLen M M
  if j ≤ 52 then ⟨M, x.e⟩
  else ⟨rneNat M (2 ^ (j - 52)), x.e + ((j - 52 : Nat) : Int)⟩

/-- `Math.round` on a non-negative binary64 value: the closest integer to
the exact value, ties toward positive infinity — `floor(x + 1/2)`
evaluated exactly (ECMA-262 defines Math.round on the mathematical value
of its argument). -/
def jsRound (x : F) : Nat :=
  if x.e < 0 then (2 * x.m + 2 ^ (-x.e).toNat) / 2 ^ ((-x.e).toNat + 1)
  else x.m * 2 ^ x.e.toNat

/-- `Math.round((correctCount / total) * 100)` as the program computes it:
the division and the multiplication are IEEE 754 binary64 operations
(emulated exactly over scaled integers), then `Math.round` takes the
closest integer, half toward positive infinity.  `c = 0` is exact through
the whole pipeline and yields 0; `t = 0` never reaches grading (the
zero-step case is rejected with `noSteps` beforehand). -/
def scoreOf (c t : Nat) : Nat :=
  if c = 0 ∨ t = 0 then 0
  else jsRound (flMul100 (flDiv c t))

/-- The grading result of the controller (UserController.js lines 582-583):
`score = Math.round((correctCount / total) * 100)` and
`allCorrect = correctCount === total`. -/
def grade (steps : List Step) (answers : List String) : Nat × Bool :=
  (scoreOf (gradeCount steps answers) steps.length,
   gradeCount steps answers == steps.length)

/-! ## Submission workflow

Embeds `ScenarioController.submit` (UserController.js lines 549-677) and the
route wiring `POST /scenarios/:id/submit` (scenarioRoutes.js line 121). -/

/-- Level-progress detail of the response.  The completed shape carries
`next_level_unlocked`; the incomplete shape carries the perfect/total
counts. -/
structure Progress where
  level_id : Nat
  completed : Bool
  next_level_unlocked : Option Nat
  perfect_in_level : Option Nat
  total_in_level : Option Nat
deriving Repr, DecidableEq

/-- Awarded-badge detail of the response. -/
structure AwardedBadge where
  badge_id : Nat
  name : String
  description : String
  icon_url : String
deriving Repr, DecidableEq

/-- The submission response body. -/
structure SubmitResult where
  score : Nat
  all_correct : Bool
  level_id : Nat
  scenario_id : Nat
  level_progress : Option Progress
  awarded_badge : Option AwardedBadge
  updated_scenario : Option Scenario
deriving Repr, DecidableEq

/-- Failure modes of the submission endpoint: non-array answers (400),
scenario absent (404, "Scenario not found"), scenario with zero steps
(404, "No steps found for this scenario."). -/
inductive SubmitError where
  | invalidInput
  | scenarioNotFound
  | noSteps
deriving Repr, DecidableEq

/-- HTTP status attached to each failure mode by the controller. -/
def httpStatus : SubmitError → Nat
  | .invalidInput => 400
  | .scenarioNotFound => 404
  | .noSteps => 404

/-- The state right after the best-score upsert (`attemptRepo.upsertBestScore`
call, UserController.js lines 594-599). -/
def postAttemptState (st : St) (u sid score : Nat) (allC : Bool) : St :=
  { st with attempts := upsertBestScore st.attempts ⟨u, sid, score, allC⟩ }

/-- `completedThisLevel` as computed at UserController.js lines 611-612:
`totalInLevel > 0 && perfectInLevel === totalInLevel`, on the state `st1`
current at that point (after the best-score upsert). -/
def completedThisLevel (st1 : St) (u L : Nat) : Bool :=
  decide (0 < countByLevel st1 L ∧ countPerfectByUserInLevel st1 u L = countByLevel st1 L)

/-- The authenticated progression cascade (UserController.js lines 593-671):
best-score upsert, fresh completion recomputation, current-level progress
upsert, conditional next-level unlock (ceiling 6), conditional at-most-once
badge award.  Returns the `level_progress` and `awarded_badge` response
fields plus the final store.  The store writes touch disjoint collections,
so the final store is assembled from the per-collection updates; every read
(`countPerfectByUserInLevel`, `countByLevel`, `findByLevel`,
`findByUserAndBadge`) is taken at the same point of the sequence as in the
source: after the best-score upsert and, for the badge-existence check,
before the badge insert. -/
def recordSubmission (st : St) (u : Nat) (scn : Scenario) (sid score : Nat)
    (allC : Bool) : Option Progress × Option AwardedBadge × St :=
  let st1 := postAttemptState st u sid score allC
  let perfect := countPerfectByUserInLevel st1 u scn.level_id
  let total := countByLevel st1 scn.level_id
  let completed := completedThisLevel st1 u scn.level_id
  let ul1 := upsertProgress st1.userLevels ⟨u, scn.level_id, true, completed⟩
  if completed then
    let nextLevelId := scn.level_id + 1
    let ul2 :=
      if scn.level_id < 6 then upsertProgress ul1 ⟨u, nextLevelId, true, false⟩
      else ul1
    let prog : Progress := ⟨scn.level_id, true, some nextLevelId, none, none⟩
    match findBadgeByLevel st1.badges scn.level_id with
    | none => (some prog, none, { st1 with userLevels := ul2 })
    | some b =>
      match findUserBadge st1.userBadges u b.badge_id with
      | some _ => (some prog, none, { st1 with userLevels := ul2 })
      | none =>
        (some prog, some ⟨b.badge_id, b.name, b.description, b.icon_url⟩,
          { st1 with userLevels := ul2,
                     userBadges := st1.userBadges ++ [⟨u, b.badge_id⟩] })
  else
    (some ⟨scn.level_id, false, none, some perfect, some total⟩, none,
      { st1 with userLevels := ul1 })

/-- `ScenarioController.submit`: validates the answer payload (`none` models
a body whose `userAnswers` is missing or not an array), resolves the scenario
and its steps, grades, and — only when an authenticated user id is present —
runs the progression cascade.  Returns the response body and the resulting
store. -/
def submit (st : St) (user? : Option Nat) (answers? : Option (List String))
    (sid : Nat) : Except SubmitError (SubmitResult × St) :=
  match answers? with
  | none => .error .invalidInput
  | some answers =>
    match getScenario st sid with
    | none => .error .scenarioNotFound
    | some scn =>
      let steps := getStepsByScenario st sid
      if steps.isEmpty then .error .noSteps
      else
        let score := (grade steps answers).1
        let allC := (grade steps answers).2
        match user? with
        | none =>
          .ok ({ score := score, all_correct := allC, level_id := scn.level_id,
                 scenario_id := sid, level_progress := none, awarded_badge := none,
                 updated_scenario := none }, st)
        | some u =>
          let r := recordSubmission st u scn sid score allC
          .ok ({ score := score, all_correct := allC, level_id := scn.level_id,
                 scenario_id := sid, level_progress := r.1, awarded_badge := r.2.1,
                 updated_scenario := getScenario r.2.2 sid }, r.2.2)

/-- The store after a submission: the new store on success, the unchanged
store on failure (error responses are sent before any write). -/
def finalState (st : St) (user? : Option Nat) (answers? : Option (List String))
    (sid : Nat) : St :=
  match submit st user? answers? sid with
  | .ok (_, st') => st'
  | .error _ => st

/-- Outcome of the registered HTTP route. -/
inductive RouteResponse where
  | unauthorized
  | handled (r : Except SubmitError (SubmitResult × St))
deriving Repr

/-- The registered route `POST /scenarios/:id/submit` (scenarioRoutes.js
line 121): the `requireAuth` middleware rejects a request without a valid
Bearer token with HTTP 401 before the controller runs; `auth` is the user id
carried by a verified token, `none` when the header is missing or invalid. -/
def routeSubmit (st : St) (auth : Option Nat) (answers? : Option (List String))
    (sid : Nat) : RouteResponse :=
  match auth with
  | none => .unauthorized
  | some u => .handled (submit st (some u) answers? sid)

/-! ## Reference definitions taken from the specification's wording

Used to compare the embedded code against the spec's phrasing. -/

/-- The claim's `correct_count` along a step list, stated from the spec's
words: the answer at position `i` matches the step's correct action under
case-insensitive comparison. -/
def specCount (answers : List String) : Nat → List Step → Nat
  | _, [] => 0
  | i, s :: rest =>
    (if jsUpper (answers.getD i "") = jsUpper s.correct_action then 1 else 0) +
      specCount answers (i + 1) rest

/-- The claim's `correct_count` for a scenario's steps: positions of the
step list sorted by `step_order` at which the supplied answer matches the
step's `correct_action` case-insensitively. -/
def specCorrectCount (steps : List Step) (answers : List String) : Nat :=
  specCount answers 0 (sortSteps steps)

/-- The claim's score formula taken at its exact-arithmetic reading:
round-half-up of `100 * c / t`, i.e. `(200*c + t) / (2*t)` over the
naturals.  The program instead evaluates `(c/t)*100` in binary64 before
rounding, which differs (e.g. at `c = 23, t = 40`). -/
def specScoreOf (c t : Nat) : Nat := (200 * c + t) / (2 * t)

/-- Count of user-badge rows for a `(user_id, badge_id)` pair. -/
def countUB (l : List UserBadgeRow) (u b : Nat) : Nat :=
  l.countP (fun r => r.user_id == u && r.badge_id == b)

/-! ## Concrete stores used to instantiate the theorems -/

/-- A store with one 4-step scenario (id 1) in level 1, correct actions
A, B, C, D (listed out of order to exercise the sort), and a badge for
level 1. -/
def W1 : St :=
  { scenarios := [⟨1, 1⟩]
  , steps := [⟨1, 2, "B"⟩, ⟨1, 1, "A"⟩, ⟨1, 4, "D"⟩, ⟨1, 3, "C"⟩]
  , attempts := []
  , userLevels := []
  , badges := [⟨10, 1, "Level 1 badge", "Completed level 1", "icon1.png"⟩]
  , userBadges := [] }

/-- A store whose scenario 2 exists but has zero steps. -/
def W2 : St :=
  { scenarios := [⟨2, 1⟩], steps := [], attempts := [], userLevels := []
  , badges := [], userBadges := [] }

/-- A store where user 7 already holds a perfect best score of 100 for
scenario 1 (one single-step scenario in level 1). -/
def W3 : St :=
  { scenarios := [⟨1, 1⟩]
  , steps := [⟨1, 1, "A"⟩]
  , attempts := [⟨7, 1, 100, true⟩]
  , userLevels := []
  , badges := []
  , userBadges := [] }

/-- A store with one single-step scenario (id 1) in level 6, the ceiling
level. -/
def W6 : St :=
  { scenarios := [⟨1, 6⟩]
  , steps := [⟨1, 1, "A"⟩]
  , attempts := []
  , userLevels := []
  , badges := []
  , userBadges := [] }

/-- A store with one 40-step scenario (id 1, level 1), every correct
action "A". -/
def W40 : St :=
  { scenarios := [⟨1, 1⟩]
  , steps := (List.range 40).map (fun i => ⟨1, (i : Int) + 1, "A"⟩)
  , attempts := []
  , userLevels := []
  , badges := []
  , userBadges := [] }

/-- 23 correct answers followed by 17 wrong ones for the 40-step
scenario: `(23/40)*100` evaluates to `57.49999999999999` in binary64, so
the program rounds to 57 while exact round-half-up of `57.5` gives 58. -/
def ansA23 : List String := List.replicate 23 "A" ++ List.replicate 17 "B"

/-! ## Lemmas about the keyed upsert -/

theorem mem_upsertBy {α : Type} {key : α → α → Bool} {l : List α} {row a : α}
    (ha : a ∈ upsertBy key l row) : a ∈ l ∨ a = row := by
  unfold upsertBy at ha
  split at ha
  · obtain ⟨b, hb, hfb⟩ := List.mem_map.1 ha
    by_cases hkb : key row b = true
    · right; rw [if_pos hkb] at hfb; exact hfb.symm
    · left; rw [if_neg hkb] at hfb; exact hfb ▸ hb
  · rcases List.mem_append.1 ha with h | h
    · exact Or.inl h
    · exact Or.inr (List.mem_singleton.1 h)

theorem eq_of_mem_upsertBy {α : Type} {key : α → α → Bool} {l : List α} {row a : α}
    (ha : a ∈ upsertBy key l row) (hk : key row a = true) : a = row := by
  unfold upsertBy at ha
  split at ha
  · obtain ⟨b, hb, hfb⟩ := List.mem_map.1 ha
    by_cases hkb : key row b = true
    · rw [if_pos hkb] at hfb; exact hfb.symm
    · rw [if_neg hkb] at hfb
      subst hfb
      exact absurd hk hkb
  · next hany =>
    rcases List.mem_append.1 ha with h | h
    · exfalso
      exact hany (List.any_eq_true.2 ⟨a, h, hk⟩)
    · exact List.mem_singleton.1 h

theorem any_upsertBy {α : Type} (key : α → α → Bool) (l : List α) (row : α)
    (hrefl : key row row = true) :
    (upsertBy key l row).any (key row) = true := by
  unfold upsertBy
  split
  · next hany =>
    obtain ⟨b, hb, hkb⟩ := List.any_eq_true.1 hany
    exact List.any_eq_true.2 ⟨row, List.mem_map.2 ⟨b, hb, by simp [hkb]⟩, hrefl⟩
  · exact List.any_eq_true.2 ⟨row, List.mem_append.2 (Or.inr (List.mem_singleton.2 rfl)), hrefl⟩

theorem any_upsertBy_other {α : Type} {key : α → α → Bool} {l : List α} {row : α}
    (q : α → Bool) (hq : l.any q = true) (hdisj : ∀ a, q a = true → key row a = false) :
    (upsertBy key l row).any q = true := by
  obtain ⟨b, hb, hqb⟩ := List.any_eq_true.1 hq
  unfold upsertBy
  split
  · refine List.any_eq_true.2 ⟨b, List.mem_map.2 ⟨b, hb, ?_⟩, hqb⟩
    simp [hdisj b hqb]
  · exact List.any_eq_true.2 ⟨b, List.mem_append.2 (Or.inl hb), hqb⟩

theorem upsertBy_eq_self {α : Type} {key : α → α → Bool} {l : List α} {row : α}
    (hany : l.any (key row) = true) (hall : ∀ a ∈ l, key row a = true → a = row) :
    upsertBy key l row = l := by
  unfold upsertBy
  simp only [hany, if_true]
  have : ∀ a ∈ l, (if key row a then row else a) = id a := by
    intro a ha
    by_cases hk : key row a = true
    · simp [hk, (hall a ha hk).symm]
    · simp [hk]
  rw [List.map_congr_left this, List.map_id]

theorem upsertBy_idem {α : Type} (key : α → α → Bool) (l : List α) (row : α)
    (hrefl : key row row = true) :
    upsertBy key (upsertBy key l row) row = upsertBy key l row :=
  upsertBy_eq_self (any_upsertBy key l row hrefl)
    (fun _ ha hk => eq_of_mem_upsertBy ha hk)

theorem find?_map_replace {α : Type} (key : α → α → Bool) (row : α) (p : α → Bool)
    (hp : ∀ a, p a = key row a) (hrefl : key row row = true) :
    ∀ l : List α,
      (l.map (fun a => if key row a then row else a)).find? p =
        if l.any (key row) then some row else none
  | [] => by simp
  | a :: l => by
    by_cases hk : key row a = true
    · simp only [List.map_cons, hk, if_true, List.any_cons, Bool.true_or]
      rw [List.find?_cons_of_pos _ (by rw [hp]; exact hrefl)]
    · simp only [List.map_cons, hk, List.any_cons, if_neg, Bool.false_or]
      rw [List.find?_cons_of_neg _ (by rw [hp]; simp [hk])]
      exact find?_map_replace key row p hp hrefl l

theorem find?_upsertBy_self {α : Type} (key : α → α → Bool) (l : List α) (row : α)
    (p : α → Bool) (hp : ∀ a, p a = key row a) (hrefl : key row row = true) :
    (upsertBy key l row).find? p = some row := by
  unfold upsertBy
  split
  · next hany => rw [find?_map_replace key row p hp hrefl, if_pos hany]
  · next hany =>
    rw [List.find?_append]
    have h1 : l.find? p = none := by
      rw [List.find?_eq_none]
      intro x hx hpx
      exact hany (List.any_eq_true.2 ⟨x, hx, by rw [← hp]; exact hpx⟩)
    have hpr : p row = true := by rw [hp]; exact hrefl
    rw [h1, List.find?_cons_of_pos _ hpr]
    rfl

theorem find?_upsertBy_other {α : Type} (key : α → α → Bool) (l : List α) (row : α)
    (p : α → Bool) (hrow : p row = false) (hdisj : ∀ a, p a = true → key row a = false) :
    (upsertBy key l row).find? p = l.find? p := by
  unfold upsertBy
  split
  · have : ∀ l' : List α,
        (l'.map (fun a => if key row a then row else a)).find? p = l'.find? p := by
      intro l'
      induction l' with
      | nil => simp
      | cons a t ih =>
        by_cases hk : key row a = true
        · have hpa : p a = false := by
            by_contra hc
            have := hdisj a (by revert hc; cases p a <;> simp)
            rw [this] at hk
            exact Bool.false_ne_true hk
          have hcell : (if key row a then row else a) = row := if_pos hk
          rw [List.map_cons, hcell,
            List.find?_cons_of_neg _ (by simp [hrow]),
            List.find?_cons_of_neg _ (by simp [hpa])]
          exact ih
        · have hcell : (if key row a then row else a) = a := if_neg hk
          rw [List.map_cons, hcell]
          by_cases hpa : p a = true
          · rw [List.find?_cons_of_pos _ hpa, List.find?_cons_of_pos _ hpa]
          · rw [List.find?_cons_of_neg _ hpa, List.find?_cons_of_neg _ hpa]
            exact ih
    exact this l
  · rw [List.find?_append]
    cases h : l.find? p with
    | some x => simp
    | none =>
      rw [List.find?_cons_of_neg _ (by simp [hrow])]
      rfl

/-! ## Lemmas about the grading engine -/

theorem countCorrect_le_length (answers : List String) :
    ∀ (i : Nat) (l : List Step), countCorrect answers i l ≤ l.length
  | _, [] => Nat.le_refl 0
  | i, s :: rest => by
    unfold countCorrect
    have h := countCorrect_le_length answers (i + 1) rest
    cases hc : stepCorrect answers i s <;> simp <;> omega

theorem stepCorrect_congr {a1 a2 : List String} {i : Nat} (s : Step)
    (h : a1.getD i "" = a2.getD i "") : stepCorrect a1 i s = stepCorrect a2 i s := by
  unfold stepCorrect
  rw [h]

theorem countCorrect_congr {a1 a2 : List String} :
    ∀ (i : Nat) (l : List Step),
      (∀ j, i ≤ j → j < i + l.length → a1.getD j "" = a2.getD j "") →
      countCorrect a1 i l = countCorrect a2 i l
  | _, [], _ => rfl
  | i, s :: rest, h => by
    unfold countCorrect
    have h1 : a1.getD i "" = a2.getD i "" :=
      h i (Nat.le_refl i) (by simp only [List.length_cons]; omega)
    have h2 : countCorrect a1 (i + 1) rest = countCorrect a2 (i + 1) rest :=
      countCorrect_congr (i + 1) rest
        (fun j hj1 hj2 => h j (by omega) (by simp only [List.length_cons]; omega))
    rw [stepCorrect_congr s h1, h2]

theorem jsUpper_ne_empty {s : String} (h : s ≠ "") : jsUpper s ≠ "" := by
  cases s with
  | mk data =>
    cases data with
    | nil => exact absurd rfl h
    | cons c cs =>
      intro hc
      have hd : (jsUpper ⟨c :: cs⟩).data = ("" : String).data := congrArg String.data hc
      have hlist : Char.toUpper c :: cs.map Char.toUpper = [] := hd
      exact List.noConfusion hlist

theorem countCorrect_eq_specCount (answers : List String) :
    ∀ (i : Nat) (l : List Step), (∀ s ∈ l, s.correct_action ≠ "") →
      countCorrect answers i l = specCount answers i l
  | _, [], _ => rfl
  | i, s :: rest, h => by
    unfold countCorrect specCount
    have hs : s.correct_action ≠ "" := h s (List.mem_cons_self s rest)
    have hcell : stepCorrect answers i s =
        decide (jsUpper (answers.getD i "") = jsUpper s.correct_action) := by
      unfold stepCorrect
      by_cases heq : jsUpper (answers.getD i "") = jsUpper s.correct_action
      · have hne : jsUpper (answers.getD i "") ≠ "" := heq ▸ jsUpper_ne_empty hs
        rw [decide_eq_true heq, decide_eq_true ⟨hne, heq⟩]
      · rw [decide_eq_false heq, decide_eq_false (fun hand => heq hand.2)]
    rw [hcell, countCorrect_eq_specCount answers (i + 1) rest
      (fun x hx => h x (List.mem_cons_of_mem s hx))]
    by_cases heq : jsUpper (answers.getD i "") = jsUpper s.correct_action <;> simp [heq]

theorem bitLen_le : ∀ (fuel n : Nat), 1 ≤ n → 2 ^ bitLen fuel n ≤ n
  | 0, n, h => by
    unfold bitLen
    simpa using h
  | fuel + 1, n, h => by
    unfold bitLen
    by_cases h1 : n ≤ 1
    · rw [if_pos h1]
      simpa using h
    · rw [if_neg h1]
      have h2 : 1 ≤ n / 2 := by omega
      have ih := bitLen_le fuel (n / 2) h2
      rw [pow_succ]
      omega

theorem rneNat_le_of_le {N D B : Nat} (hD : 0 < D) (h : N ≤ B * D) : rneNat N D ≤ B := by
  have hdm : D * (N / D) + N % D = N := Nat.div_add_mod N D
  have hmod : N % D < D := Nat.mod_lt N hD
  have hq : N / D ≤ B := by
    have h2 : N / D ≤ B * D / D := Nat.div_le_div_right h
    rwa [Nat.mul_div_cancel _ hD] at h2
  have hq1 : 0 < N % D → N / D + 1 ≤ B := by
    intro hr
    have hlt : D * (N / D) < B * D := by omega
    have hlt2 : D * (N / D) < D * B := by rw [Nat.mul_comm B D] at hlt; exact hlt
    have := Nat.lt_of_mul_lt_mul_left hlt2
    omega
  unfold rneNat
  split
  · exact hq
  · split
    · exact hq1 (by omega)
    · split
      · exact hq
      · exact hq1 (by omega)

theorem jsRound_aux (m s : Nat) (hm : m ≤ 100 * 2 ^ s) :
    (2 * m + 2 ^ s) / 2 ^ (s + 1) ≤ 100 := by
  have hp : (0:Nat) < 2 ^ s := pow_pos (by omega) s
  have h1 : 2 * m + 2 ^ s ≤ 2 ^ (s + 1) * 100 + 2 ^ s := by
    rw [pow_succ]
    omega
  have h2 : (2 ^ (s + 1) * 100 + 2 ^ s) / 2 ^ (s + 1) = 100 := by
    rw [Nat.mul_add_div (by rw [pow_succ]; omega)]
    have h3 : 2 ^ s / 2 ^ (s + 1) = 0 := Nat.div_eq_of_lt (by rw [pow_succ]; omega)
    omega
  calc (2 * m + 2 ^ s) / 2 ^ (s + 1)
      ≤ (2 ^ (s + 1) * 100 + 2 ^ s) / 2 ^ (s + 1) := Nat.div_le_div_right h1
    _ = 100 := h2

theorem jsRound_le_100 (x : F) (hneg : x.e < 0)
    (hm : x.m ≤ 100 * 2 ^ (-x.e).toNat) : jsRound x ≤ 100 := by
  unfold jsRound
  rw [if_pos hneg]
  exact jsRound_aux x.m _ hm

theorem pipeline_le_100 (m1 k : Nat) (hm1 : m1 ≤ 2 ^ (52 + k)) :
    jsRound (flMul100 ⟨m1, -((k : Int) + 52)⟩) ≤ 100 := by
  unfold flMul100
  dsimp only
  by_cases hj : bitLen (100 * m1) (100 * m1) ≤ 52
  · rw [if_pos hj]
    apply jsRound_le_100
    · dsimp only
      omega
    · dsimp only
      have he : (-(-((k : Int) + 52))).toNat = 52 + k := by omega
      rw [he]
      exact Nat.mul_le_mul_left 100 hm1
  · rw [if_neg hj]
    have hM1 : 1 ≤ 100 * m1 := by
      by_contra hM0
      have hz : 100 * m1 = 0 := by omega
      rw [hz] at hj
      exact hj (by decide)
    have h2j : 2 ^ bitLen (100 * m1) (100 * m1) ≤ 100 * m1 := bitLen_le _ _ hM1
    have hMle : 100 * m1 ≤ 100 * 2 ^ (52 + k) := Nat.mul_le_mul_left 100 hm1
    have hjlt : bitLen (100 * m1) (100 * m1) < 59 + k := by
      have h128 : (100 : Nat) * 2 ^ (52 + k) < 2 ^ (59 + k) := by
        have hsplit : (2 : Nat) ^ (59 + k) = 128 * 2 ^ (52 + k) := by
          rw [show 59 + k = 7 + (52 + k) by omega, pow_add]
          norm_num
        have hp : (0:Nat) < 2 ^ (52 + k) := pow_pos (by omega) _
        omega
      have hlt : 2 ^ bitLen (100 * m1) (100 * m1) < 2 ^ (59 + k) := by omega
      exact (Nat.pow_lt_pow_iff_right (by omega)).mp hlt
    set j := bitLen (100 * m1) (100 * m1) with hjdef
    have hm2 : rneNat (100 * m1) (2 ^ (j - 52)) ≤ 100 * 2 ^ (52 + k - (j - 52)) := by
      apply rneNat_le_of_le (pow_pos (by omega) _)
      have hsame : 100 * 2 ^ (52 + k - (j - 52)) * 2 ^ (j - 52) = 100 * 2 ^ (52 + k) := by
        rw [Nat.mul_assoc, ← pow_add]
        congr 2
        omega
      omega
    apply jsRound_le_100
    · dsimp only
      omega
    · dsimp only
      have he : (-(-((k : Int) + 52) + ((j - 52 : Nat) : Int))).toNat =
          52 + k - (j - 52) := by omega
      rw [he]
      exact hm2

theorem findE_self {c : Nat} (hc : 0 < c) : findE c c c = 0 := by
  cases c with
  | zero => omega
  | succ n =>
    unfold findE
    rw [if_pos (by omega)]

theorem flDiv_self {c : Nat} (hc : 0 < c) : flDiv c c = ⟨2 ^ 52, -52⟩ := by
  simp only [flDiv]
  rw [if_pos (Nat.le_refl c), findE_self hc]
  have h2 : rneNat (c * 2 ^ 52) (c * 2 ^ 0) = 2 ^ 52 := by
    rw [pow_zero, Nat.mul_one]
    unfold rneNat
    rw [Nat.mul_mod_right]
    rw [if_pos (by omega)]
    exact Nat.mul_div_cancel_left _ hc
  rw [h2]
  decide

theorem scoreOf_self {c : Nat} (hc : 0 < c) : scoreOf c c = 100 := by
  unfold scoreOf
  rw [if_neg (by omega), flDiv_self hc]
  decide

theorem scoreOf_le_100 {c t : Nat} (hct : c ≤ t) (ht : 0 < t) : scoreOf c t ≤ 100 := by
  by_cases hc0 : c = 0
  · unfold scoreOf
    rw [if_pos (Or.inl hc0)]
    omega
  · by_cases hceq : c = t
    · subst hceq
      rw [scoreOf_self (by omega)]
    · unfold scoreOf
      rw [if_neg (by omega)]
      simp only [flDiv]
      rw [if_neg (by omega : ¬ t ≤ c)]
      exact pipeline_le_100 _ _ (rneNat_le_of_le ht (by
        calc c * 2 ^ (52 + findK c t t)
            ≤ t * 2 ^ (52 + findK c t t) := Nat.mul_le_mul_right _ hct
          _ = 2 ^ (52 + findK c t t) * t := Nat.mul_comm _ _))

theorem gradeCount_le (steps : List Step) (answers : List String) :
    gradeCount steps answers ≤ steps.length := by
  unfold gradeCount
  have h := countCorrect_le_length answers 0 (sortSteps steps)
  have hlen : (sortSteps steps).length = steps.length :=
    (List.perm_insertionSort _ steps).length_eq
  omega

theorem getD_take_eq {l : List String} {j n : Nat} (h : j < n) :
    (l.take n).getD j "" = l.getD j "" := by
  rw [List.getD_eq_getElem?_getD, List.getD_eq_getElem?_getD, List.getElem?_take, if_pos h]

/-! ## Characterizations of `submit` -/

theorem submit_none_answers (st : St) (u? : Option Nat) (sid : Nat) :
    submit st u? none sid = .error .invalidInput := rfl

theorem submit_no_scenario (st : St) (u? : Option Nat) (answers : List String) (sid : Nat)
    (hs : getScenario st sid = none) :
    submit st u? (some answers) sid = .error .scenarioNotFound := by
  unfold submit
  rw [hs]

theorem submit_no_steps (st : St) (u? : Option Nat) (answers : List String) (sid : Nat)
    (scn : Scenario) (hs : getScenario st sid = some scn)
    (hne : (getStepsByScenario st sid).isEmpty = true) :
    submit st u? (some answers) sid = .error .noSteps := by
  unfold submit
  rw [hs]
  simp only [hne, if_true]

theorem submit_guest_eq (st : St) (answers : List String) (sid : Nat)
    (scn : Scenario) (hs : getScenario st sid = some scn)
    (hne : (getStepsByScenario st sid).isEmpty = false) :
    submit st none (some answers) sid =
      .ok ({ score := (grade (getStepsByScenario st sid) answers).1,
             all_correct := (grade (getStepsByScenario st sid) answers).2,
             level_id := scn.level_id, scenario_id := sid,
             level_progress := none, awarded_badge := none,
             updated_scenario := none }, st) := by
  unfold submit
  rw [hs]
  simp only [hne, Bool.false_eq_true, if_false]

theorem submit_auth_eq (st : St) (u : Nat) (answers : List String) (sid : Nat)
    (scn : Scenario) (hs : getScenario st sid = some scn)
    (hne : (getStepsByScenario st sid).isEmpty = false) :
    submit st (some u) (some answers) sid =
      .ok ({ score := (grade (getStepsByScenario st sid) answers).1,
             all_correct := (grade (getStepsByScenario st sid) answers).2,
             level_id := scn.level_id, scenario_id := sid,
             level_progress := (recordSubmission st u scn sid
               (grade (getStepsByScenario st sid) answers).1
               (grade (getStepsByScenario st sid) answers).2).1,
             awarded_badge := (recordSubmission st u scn sid
               (grade (getStepsByScenario st sid) answers).1
               (grade (getStepsByScenario st sid) answers).2).2.1,
             updated_scenario := getScenario (recordSubmission st u scn sid
               (grade (getStepsByScenario st sid) answers).1
               (grade (getStepsByScenario st sid) answers).2).2.2 sid },
           (recordSubmission st u scn sid
             (grade (getStepsByScenario st sid) answers).1
             (grade (getStepsByScenario st sid) answers).2).2.2) := by
  unfold submit
  rw [hs]
  simp only [hne, Bool.false_eq_true, if_false]

theorem submit_ok_inv {st : St} {u? : Option Nat} {answers : List String} {sid : Nat}
    {res : SubmitResult} {st' : St}
    (h : submit st u? (some answers) sid = .ok (res, st')) :
    ∃ scn, getScenario st sid = some scn ∧
      (getStepsByScenario st sid).isEmpty = false := by
  cases hs : getScenario st sid with
  | none => rw [submit_no_scenario st u? answers sid hs] at h; exact Except.noConfusion h
  | some scn =>
    cases hne : (getStepsByScenario st sid).isEmpty with
    | true => rw [submit_no_steps st u? answers sid scn hs hne] at h; exact Except.noConfusion h
    | false => exact ⟨scn, rfl, rfl⟩

/-! ## Preservation lemmas for the progression cascade -/

@[simp] theorem postAttemptState_scenarios (st : St) (u sid score : Nat) (allC : Bool) :
    (postAttemptState st u sid score allC).scenarios = st.scenarios := rfl

@[simp] theorem postAttemptState_steps (st : St) (u sid score : Nat) (allC : Bool) :
    (postAttemptState st u sid score allC).steps = st.steps := rfl

@[simp] theorem postAttemptState_userLevels (st : St) (u sid score : Nat) (allC : Bool) :
    (postAttemptState st u sid score allC).userLevels = st.userLevels := rfl

@[simp] theorem postAttemptState_badges (st : St) (u sid score : Nat) (allC : Bool) :
    (postAttemptState st u sid score allC).badges = st.badges := rfl

@[simp] theorem postAttemptState_userBadges (st : St) (u sid score : Nat) (allC : Bool) :
    (postAttemptState st u sid score allC).userBadges = st.userBadges := rfl

@[simp] theorem postAttemptState_attempts (st : St) (u sid score : Nat) (allC : Bool) :
    (postAttemptState st u sid score allC).attempts =
      upsertBestScore st.attempts ⟨u, sid, score, allC⟩ := rfl

theorem recordSubmission_preserves (st : St) (u : Nat) (scn : Scenario) (sid score : Nat)
    (allC : Bool) :
    (recordSubmission st u scn sid score allC).2.2.scenarios = st.scenarios ∧
    (recordSubmission st u scn sid score allC).2.2.steps = st.steps ∧
    (recordSubmission st u scn sid score allC).2.2.badges = st.badges ∧
    (recordSubmission st u scn sid score allC).2.2.attempts =
      upsertBestScore st.attempts ⟨u, sid, score, allC⟩ := by
  unfold recordSubmission
  simp only [postAttemptState]
  repeat' split
  all_goals exact ⟨rfl, rfl, rfl, rfl⟩

theorem recordSubmission_userLevels_completed_lt {st : St} {u : Nat} {scn : Scenario}
    {sid score : Nat} {allC : Bool}
    (hc : completedThisLevel (postAttemptState st u sid score allC) u scn.level_id = true)
    (h6 : scn.level_id < 6) :
    (recordSubmission st u scn sid score allC).2.2.userLevels =
      upsertProgress (upsertProgress st.userLevels ⟨u, scn.level_id, true, true⟩)
        ⟨u, scn.level_id + 1, true, false⟩ := by
  unfold recordSubmission
  simp only [hc, if_true, h6]
  repeat' split
  all_goals rfl

theorem recordSubmission_userLevels_completed_ge {st : St} {u : Nat} {scn : Scenario}
    {sid score : Nat} {allC : Bool}
    (hc : completedThisLevel (postAttemptState st u sid score allC) u scn.level_id = true)
    (h6 : ¬scn.level_id < 6) :
    (recordSubmission st u scn sid score allC).2.2.userLevels =
      upsertProgress st.userLevels ⟨u, scn.level_id, true, true⟩ := by
  unfold recordSubmission
  simp only [hc, if_true, h6, if_false]
  repeat' split
  all_goals rfl

theorem recordSubmission_userLevels_not_completed {st : St} {u : Nat} {scn : Scenario}
    {sid score : Nat} {allC : Bool}
    (hc : completedThisLevel (postAttemptState st u sid score allC) u scn.level_id = false) :
    (recordSubmission st u scn sid score allC).2.2.userLevels =
      upsertProgress st.userLevels ⟨u, scn.level_id, true, false⟩ := by
  unfold recordSubmission
  simp only [hc, Bool.false_eq_true, if_false, postAttemptState_userLevels]

theorem recordSubmission_userBadges_not_completed {st : St} {u : Nat} {scn : Scenario}
    {sid score : Nat} {allC : Bool}
    (hc : completedThisLevel (postAttemptState st u sid score allC) u scn.level_id = false) :
    (recordSubmission st u scn sid score allC).2.2.userBadges = st.userBadges := by
  unfold recordSubmission
  simp only [hc, Bool.false_eq_true, if_false, postAttemptState_userBadges]

theorem recordSubmission_userBadges_completed {st : St} {u : Nat} {scn : Scenario}
    {sid score : Nat} {allC : Bool}
    (hc : completedThisLevel (postAttemptState st u sid score allC) u scn.level_id = true) :
    (recordSubmission st u scn sid score allC).2.2.userBadges =
      (match findBadgeByLevel st.badges scn.level_id with
       | none => st.userBadges
       | some b =>
         match findUserBadge st.userBadges u b.badge_id with
         | some _ => st.userBadges
         | none => st.userBadges ++ [⟨u, b.badge_id⟩]) := by
  unfold recordSubmission
  simp only [hc, if_true, postAttemptState_badges, postAttemptState_userBadges]
  cases hb : findBadgeByLevel st.badges scn.level_id with
  | none => rfl
  | some b =>
    dsimp only
    cases hub : findUserBadge st.userBadges u b.badge_id with
    | none => rfl
    | some x => rfl

theorem recordSubmission_progress_completed {st : St} {u : Nat} {scn : Scenario}
    {sid score : Nat} {allC : Bool}
    (hc : completedThisLevel (postAttemptState st u sid score allC) u scn.level_id = true) :
    (recordSubmission st u scn sid score allC).1 =
      some ⟨scn.level_id, true, some (scn.level_id + 1), none, none⟩ := by
  unfold recordSubmission
  simp only [hc, if_true]
  repeat' split
  all_goals rfl

theorem recordSubmission_awarded_some {st : St} {u : Nat} {scn : Scenario}
    {sid score : Nat} {allC : Bool} {ab : AwardedBadge}
    (h : (recordSubmission st u scn sid score allC).2.1 = some ab) :
    completedThisLevel (postAttemptState st u sid score allC) u scn.level_id = true ∧
    ∃ b, findBadgeByLevel st.badges scn.level_id = some b ∧
      ab = ⟨b.badge_id, b.name, b.description, b.icon_url⟩ ∧
      findUserBadge st.userBadges u b.badge_id = none ∧
      (recordSubmission st u scn sid score allC).2.2.userBadges =
        st.userBadges ++ [⟨u, b.badge_id⟩] := by
  cases hc : completedThisLevel (postAttemptState st u sid score allC) u scn.level_id with
  | false =>
    exfalso
    unfold recordSubmission at h
    simp only [hc, Bool.false_eq_true, if_false] at h
    exact Option.noConfusion h
  | true =>
    refine ⟨rfl, ?_⟩
    unfold recordSubmission at h ⊢
    simp only [hc, if_true, postAttemptState_badges, postAttemptState_userBadges] at h ⊢
    cases hb : findBadgeByLevel st.badges scn.level_id with
    | none =>
      rw [hb] at h
      dsimp only at h
      exact Option.noConfusion h
    | some b =>
      rw [hb] at h
      dsimp only at h ⊢
      cases hub : findUserBadge st.userBadges u b.badge_id with
      | some x =>
        rw [hub] at h
        dsimp only at h
        exact Option.noConfusion h
      | none =>
        rw [hub] at h
        dsimp only at h ⊢
        injection h with hab
        exact ⟨b, rfl, hab.symm, hub, rfl⟩

theorem recordSubmission_progress_not_completed {st : St} {u : Nat} {scn : Scenario}
    {sid score : Nat} {allC : Bool}
    (hc : completedThisLevel (postAttemptState st u sid score allC) u scn.level_id = false) :
    (recordSubmission st u scn sid score allC).1 =
      some ⟨scn.level_id, false, none,
            some (countPerfectByUserInLevel (postAttemptState st u sid score allC) u scn.level_id),
            some (countByLevel (postAttemptState st u sid score allC) scn.level_id)⟩ := by
  unfold recordSubmission
  simp only [hc, Bool.false_eq_true, if_false]

end ScenarioSubmit

namespace ScenarioSubmit

/-! ## Store-specific upsert and lookup lemmas -/

theorem attemptKey_refl (row : Attempt) : attemptKey row row = true := by
  simp [attemptKey]

theorem userLevelKey_refl (row : UserLevelRow) : userLevelKey row row = true := by
  simp [userLevelKey]

theorem findAttempt_upsertBestScore_self (l : List Attempt) (row : Attempt) :
    findAttempt (upsertBestScore l row) row.user_id row.scenario_id = some row := by
  unfold findAttempt upsertBestScore
  exact find?_upsertBy_self attemptKey l row _ (fun a => rfl) (attemptKey_refl row)

theorem findUserLevel_upsertProgress_self (l : List UserLevelRow) (row : UserLevelRow) :
    findUserLevel (upsertProgress l row) row.user_id row.level_id = some row := by
  unfold findUserLevel upsertProgress
  exact find?_upsertBy_self userLevelKey l row _ (fun a => rfl) (userLevelKey_refl row)

theorem findUserLevel_upsertProgress_other {l : List UserLevelRow} {row : UserLevelRow}
    {u L : Nat} (hne : L ≠ row.level_id) :
    findUserLevel (upsertProgress l row) u L = findUserLevel l u L := by
  unfold findUserLevel upsertProgress
  apply find?_upsertBy_other
  · have hl : (row.level_id == L) = false := by
      rw [Bool.eq_false_iff]
      intro hb
      exact hne (beq_iff_eq.mp hb).symm
    rw [hl, Bool.and_false]
  · intro a hpa
    rw [Bool.and_eq_true] at hpa
    have haL : a.level_id = L := beq_iff_eq.mp hpa.2
    unfold userLevelKey
    have : (a.level_id == row.level_id) = false := by
      rw [Bool.eq_false_iff]
      intro hb
      exact hne (haL ▸ beq_iff_eq.mp hb)
    rw [this, Bool.and_false]

theorem upsertProgress_eq_self {l : List UserLevelRow} {row : UserLevelRow}
    (hany : l.any (userLevelKey row) = true)
    (hall : ∀ a ∈ l, userLevelKey row a = true → a = row) :
    upsertProgress l row = l :=
  upsertBy_eq_self hany hall

theorem userLevelKey_disjoint {row1 row2 : UserLevelRow}
    (hne : row1.level_id ≠ row2.level_id) :
    ∀ a, userLevelKey row1 a = true → userLevelKey row2 a = false := by
  intro a h1
  unfold userLevelKey at h1 ⊢
  rw [Bool.and_eq_true] at h1
  have haL : a.level_id = row1.level_id := beq_iff_eq.mp h1.2
  have : (a.level_id == row2.level_id) = false := by
    rw [Bool.eq_false_iff]
    intro hb
    exact hne (haL ▸ beq_iff_eq.mp hb)
  rw [this, Bool.and_false]

/-! ## Congruence lemmas for the aggregate reads -/

theorem countPerfect_congr {s1 s2 : St} (ha : s1.attempts = s2.attempts)
    (hs : s1.scenarios = s2.scenarios) (u L : Nat) :
    countPerfectByUserInLevel s1 u L = countPerfectByUserInLevel s2 u L := by
  unfold countPerfectByUserInLevel getScenario
  rw [ha, hs]

theorem countByLevel_congr {s1 s2 : St} (hs : s1.scenarios = s2.scenarios) (L : Nat) :
    countByLevel s1 L = countByLevel s2 L := by
  unfold countByLevel
  rw [hs]

theorem completedThisLevel_congr {s1 s2 : St} (ha : s1.attempts = s2.attempts)
    (hs : s1.scenarios = s2.scenarios) (u L : Nat) :
    completedThisLevel s1 u L = completedThisLevel s2 u L := by
  unfold completedThisLevel
  rw [countPerfect_congr ha hs, countByLevel_congr hs]

theorem St_eq_of_fields {a b : St} (h1 : a.scenarios = b.scenarios)
    (h2 : a.steps = b.steps) (h3 : a.attempts = b.attempts)
    (h4 : a.userLevels = b.userLevels) (h5 : a.badges = b.badges)
    (h6 : a.userBadges = b.userBadges) : a = b := by
  cases a
  cases b
  congr 1

end ScenarioSubmit

namespace ScenarioSubmit

/-! ## Claim theorems -/

/-- C1 counterexample: the claim's exact formula
`score = round(correct_count / total_steps * 100)` fails on the code.  For
the 40-step scenario with 23 correct answers the program evaluates
`(23/40)*100` in binary64, yielding `57.49999999999999`, and
`Math.round` returns 57 — while exact round-half-up of `57.5` gives 58. -/
theorem C1_counterexample :
    submit W40 none (some ansA23) 1 =
      Except.ok ({ score := 57, all_correct := false, level_id := 1,
                   scenario_id := 1, level_progress := none,
                   awarded_badge := none, updated_scenario := none }, W40) ∧
    specCorrectCount (getStepsByScenario W40 1) ansA23 = 23 ∧
    (getStepsByScenario W40 1).length = 40 ∧
    specScoreOf 23 40 = 58 ∧
    scoreOf 23 40 = 57 :=
  ⟨rfl, by decide, by decide, by decide, by decide⟩

/-- C1 (amended): for every scenario with a non-empty step list and every
list-shaped answer sequence, `submit` succeeds and returns
`score = Math.round((correct_count / total_steps) * 100)` with the division
and multiplication evaluated in IEEE 754 binary64 (`scoreOf`), an integer
in 0..100, and `all_correct = true` iff `correct_count = total_steps`,
where `correct_count` is the number of positions at which the supplied
answer matches the step's `correct_action` under case-insensitive
comparison (steps carry a non-empty correct action, per the data-model
invariant).  The binary64 evaluation agrees with the exact formula on the
4-step example (75) but not universally (see the counterexample at
23 of 40). -/
theorem C1_score_binary64_amended (st : St) (u? : Option Nat)
    (answers : List String) (sid : Nat) (scn : Scenario)
    (hs : getScenario st sid = some scn)
    (hne : (getStepsByScenario st sid).isEmpty = false)
    (hca : ∀ s ∈ getStepsByScenario st sid, s.correct_action ≠ "") :
    ∃ res st', submit st u? (some answers) sid = Except.ok (res, st') ∧
      res.score = scoreOf (specCorrectCount (getStepsByScenario st sid) answers)
        (getStepsByScenario st sid).length ∧
      res.score ≤ 100 ∧
      (res.all_correct = true ↔
        specCorrectCount (getStepsByScenario st sid) answers =
          (getStepsByScenario st sid).length) := by
  have hSne : getStepsByScenario st sid ≠ [] := by
    intro hnil
    rw [hnil] at hne
    exact Bool.noConfusion hne
  have hpos : 0 < (getStepsByScenario st sid).length := List.length_pos.mpr hSne
  have hsca : ∀ s ∈ sortSteps (getStepsByScenario st sid), s.correct_action ≠ "" :=
    fun s hsmem => hca s ((List.perm_insertionSort _ _).subset hsmem)
  have hgc : gradeCount (getStepsByScenario st sid) answers =
      specCorrectCount (getStepsByScenario st sid) answers :=
    countCorrect_eq_specCount answers 0 _ hsca
  have hle : gradeCount (getStepsByScenario st sid) answers ≤
      (getStepsByScenario st sid).length := gradeCount_le _ _
  have hscore : (grade (getStepsByScenario st sid) answers).1 =
      scoreOf (specCorrectCount (getStepsByScenario st sid) answers)
        (getStepsByScenario st sid).length := by
    unfold grade
    rw [hgc]
  have hbound : (grade (getStepsByScenario st sid) answers).1 ≤ 100 :=
    scoreOf_le_100 hle hpos
  have hac : ((grade (getStepsByScenario st sid) answers).2 = true ↔
      specCorrectCount (getStepsByScenario st sid) answers =
        (getStepsByScenario st sid).length) := by
    unfold grade
    rw [hgc]
    exact beq_iff_eq
  cases u? with
  | none => exact ⟨_, _, submit_guest_eq st answers sid scn hs hne, hscore, hbound, hac⟩
  | some u => exact ⟨_, _, submit_auth_eq st u answers sid scn hs hne, hscore, hbound, hac⟩

theorem C1_witness :
    (∃ res st', submit W1 none (some ["a", "b", "x", "d"]) 1 = Except.ok (res, st') ∧
      res.score = scoreOf (specCorrectCount (getStepsByScenario W1 1) ["a", "b", "x", "d"])
        (getStepsByScenario W1 1).length ∧
      res.score ≤ 100 ∧
      (res.all_correct = true ↔
        specCorrectCount (getStepsByScenario W1 1) ["a", "b", "x", "d"] =
          (getStepsByScenario W1 1).length)) ∧
    scoreOf (specCorrectCount (getStepsByScenario W1 1) ["a", "b", "x", "d"])
      (getStepsByScenario W1 1).length = 75 ∧
    specCorrectCount (getStepsByScenario W1 1) ["a", "b", "x", "d"] = 3 ∧
    (getStepsByScenario W1 1).length = 4 :=
  ⟨C1_score_binary64_amended W1 none ["a", "b", "x", "d"] 1 ⟨1, 1⟩
      (by decide) (by decide) (by decide),
    by decide, by decide, by decide⟩

/-- C6: grading sorts the steps by `step_order` ascending (the sorted list is
a sorted permutation of the stored list) and grades the answer at 0-indexed
position `i` against the step at sorted position `i`; answers beyond the step
count are ignored (truncating the answer list to the step count does not
change the count), and a missing or empty answer at a position always grades
as incorrect. -/
theorem C6_ordering_and_alignment (steps : List Step) (answers : List String) :
    List.Perm (sortSteps steps) steps ∧
    List.Sorted (fun a b : Step => a.step_order ≤ b.step_order) (sortSteps steps) ∧
    gradeCount steps answers = countCorrect answers 0 (sortSteps steps) ∧
    gradeCount steps answers = gradeCount steps (answers.take steps.length) ∧
    (∀ i s, answers.getD i "" = "" → stepCorrect answers i s = false) := by
  refine ⟨List.perm_insertionSort _ steps, List.sorted_insertionSort _ steps, rfl, ?_, ?_⟩
  · unfold gradeCount
    have hlen : (sortSteps steps).length = steps.length :=
      (List.perm_insertionSort _ steps).length_eq
    apply countCorrect_congr
    intro j hj1 hj2
    rw [getD_take_eq]
    omega
  · intro i s h
    unfold stepCorrect
    rw [h]
    exact decide_eq_false (fun hand => hand.1 rfl)

theorem C6_witness :
    (List.Perm (sortSteps W1.steps) W1.steps ∧
      List.Sorted (fun a b : Step => a.step_order ≤ b.step_order) (sortSteps W1.steps) ∧
      gradeCount W1.steps ["a", "b"] = countCorrect ["a", "b"] 0 (sortSteps W1.steps) ∧
      gradeCount W1.steps ["a", "b"] = gradeCount W1.steps (["a", "b"].take W1.steps.length) ∧
      (∀ i s, ["a", "b"].getD i "" = "" → stepCorrect ["a", "b"] i s = false)) ∧
    gradeCount W1.steps ["a", "b"] = 2 ∧
    gradeCount W1.steps ["a", "b", "c", "d", "EXTRA", "MORE"] = 4 ∧
    gradeCount W1.steps ["a", "", "c", "d"] = 3 :=
  ⟨C6_ordering_and_alignment W1.steps ["a", "b"], by decide, by decide, by decide⟩

/-- C7: `submit` fails with `invalidInput` (HTTP 400) when the answers
payload is not list-shaped, with `scenarioNotFound` (HTTP 404) when the
scenario is absent, and with the distinct error `noSteps` (HTTP 404) when
the scenario exists but has zero steps; in each failure case the persisted
store is unchanged (the failure is raised before any progression write). -/
theorem C7_error_paths (st : St) (u? : Option Nat) (sid : Nat) :
    (submit st u? none sid = Except.error SubmitError.invalidInput ∧
      finalState st u? none sid = st) ∧
    (∀ answers, getScenario st sid = none →
      submit st u? (some answers) sid = Except.error SubmitError.scenarioNotFound ∧
      finalState st u? (some answers) sid = st) ∧
    (∀ answers scn, getScenario st sid = some scn → getStepsByScenario st sid = [] →
      submit st u? (some answers) sid = Except.error SubmitError.noSteps ∧
      finalState st u? (some answers) sid = st) ∧
    httpStatus SubmitError.invalidInput = 400 ∧
    httpStatus SubmitError.scenarioNotFound = 404 ∧
    httpStatus SubmitError.noSteps = 404 ∧
    SubmitError.scenarioNotFound ≠ SubmitError.noSteps := by
  refine ⟨⟨rfl, rfl⟩, ?_, ?_, rfl, rfl, rfl, by decide⟩
  · intro answers hnone
    have he := submit_no_scenario st u? answers sid hnone
    refine ⟨he, ?_⟩
    unfold finalState
    rw [he]
  · intro answers scn hsome hempty
    have hie : (getStepsByScenario st sid).isEmpty = true := by
      rw [hempty]
      rfl
    have he := submit_no_steps st u? answers sid scn hsome hie
    refine ⟨he, ?_⟩
    unfold finalState
    rw [he]

theorem C7_witness :
    submit W1 none none 1 = Except.error SubmitError.invalidInput ∧
    submit W1 none (some ["A"]) 99 = Except.error SubmitError.scenarioNotFound ∧
    finalState W1 none (some ["A"]) 99 = W1 ∧
    submit W2 (some 7) (some ["A"]) 2 = Except.error SubmitError.noSteps ∧
    finalState W2 (some 7) (some ["A"]) 2 = W2 ∧
    httpStatus SubmitError.invalidInput = 400 ∧
    httpStatus SubmitError.noSteps = 404 :=
  ⟨(C7_error_paths W1 none 1).1.1,
    ((C7_error_paths W1 none 99).2.1 ["A"] (by decide)).1,
    ((C7_error_paths W1 none 99).2.1 ["A"] (by decide)).2,
    ((C7_error_paths W2 (some 7) 2).2.2.1 ["A"] ⟨2, 1⟩ (by decide) (by decide)).1,
    ((C7_error_paths W2 (some 7) 2).2.2.1 ["A"] ⟨2, 1⟩ (by decide) (by decide)).2,
    (C7_error_paths W1 none 1).2.2.2.1,
    (C7_error_paths W1 none 1).2.2.2.2.2.1⟩

end ScenarioSubmit

namespace ScenarioSubmit

/-- Inversion of a successful authenticated submission: the response carries
the grading result and the final store is the one produced by the
progression cascade run with that grading result. -/
theorem submit_auth_ok_elim {st : St} {u sid : Nat} {answers : List String}
    {res : SubmitResult} {st' : St} {scn : Scenario}
    (h : submit st (some u) (some answers) sid = Except.ok (res, st'))
    (hs : getScenario st sid = some scn) :
    res.score = (grade (getStepsByScenario st sid) answers).1 ∧
    res.all_correct = (grade (getStepsByScenario st sid) answers).2 ∧
    res.level_progress = (recordSubmission st u scn sid res.score res.all_correct).1 ∧
    res.awarded_badge = (recordSubmission st u scn sid res.score res.all_correct).2.1 ∧
    st' = (recordSubmission st u scn sid res.score res.all_correct).2.2 := by
  obtain ⟨scn', hs', hne⟩ := submit_ok_inv h
  rw [hs] at hs'
  injection hs' with hscn
  subst hscn
  rw [submit_auth_eq st u answers sid scn hs hne] at h
  injection h with h1
  injection h1 with hres hst
  subst hres
  subst hst
  exact ⟨rfl, rfl, rfl, rfl, rfl⟩

/-- C2: on every successful authenticated submission the user-level row
written for the current level carries
`completed = completedThisLevel st1 u level`, where `st1` is the store right
after the best-score upsert (the counts are re-read fresh there), and the
flag is `decide (0 < total_in_level ∧ perfect_in_level = total_in_level)`;
consequently a level with zero scenarios is never marked completed. -/
theorem C2_fresh_level_completion (st : St) (u sid : Nat) (answers : List String)
    (res : SubmitResult) (st' : St) (scn : Scenario)
    (h : submit st (some u) (some answers) sid = Except.ok (res, st'))
    (hs : getScenario st sid = some scn) :
    findUserLevel st'.userLevels u scn.level_id =
      some ⟨u, scn.level_id, true,
        completedThisLevel (postAttemptState st u sid res.score res.all_correct)
          u scn.level_id⟩ ∧
    (countByLevel st scn.level_id = 0 →
      completedThisLevel (postAttemptState st u sid res.score res.all_correct)
        u scn.level_id = false) := by
  obtain ⟨hsc, hac, hlp, hab, hst⟩ := submit_auth_ok_elim h hs
  subst hst
  constructor
  · cases hcv : completedThisLevel (postAttemptState st u sid res.score res.all_correct)
        u scn.level_id with
    | true =>
      by_cases h6 : scn.level_id < 6
      · rw [recordSubmission_userLevels_completed_lt hcv h6,
          findUserLevel_upsertProgress_other (Nat.succ_ne_self scn.level_id).symm]
        exact findUserLevel_upsertProgress_self st.userLevels ⟨u, scn.level_id, true, true⟩
      · rw [recordSubmission_userLevels_completed_ge hcv h6]
        exact findUserLevel_upsertProgress_self st.userLevels ⟨u, scn.level_id, true, true⟩
    | false =>
      rw [recordSubmission_userLevels_not_completed hcv]
      exact findUserLevel_upsertProgress_self st.userLevels ⟨u, scn.level_id, true, false⟩
  · intro h0
    unfold completedThisLevel
    apply decide_eq_false
    rintro ⟨h1, -⟩
    rw [countByLevel_congr
      (postAttemptState_scenarios st u sid res.score res.all_correct), h0] at h1
    exact Nat.lt_irrefl 0 h1

theorem C2_witness :
    ∃ res st', submit W1 (some 7) (some ["A", "B", "C", "D"]) 1 = Except.ok (res, st') ∧
      findUserLevel st'.userLevels 7 1 =
        some ⟨7, 1, true,
          completedThisLevel (postAttemptState W1 7 1 res.score res.all_correct) 7 1⟩ ∧
      completedThisLevel (postAttemptState W1 7 1 res.score res.all_correct) 7 1 = true := by
  refine ⟨_, _, rfl, ?_, by decide⟩
  exact (C2_fresh_level_completion W1 7 1 ["A", "B", "C", "D"] _ _ ⟨1, 1⟩ rfl (by decide)).1

/-- C4: the next-level unlock row (`unlocked = true`, `completed = false`)
is written iff the current level is completed this submission and the
current level id is strictly below the ceiling 6; in every other case the
user-level row for the next level is left exactly as it was. -/
theorem C4_next_level_unlock (st : St) (u sid : Nat) (answers : List String)
    (res : SubmitResult) (st' : St) (scn : Scenario)
    (h : submit st (some u) (some answers) sid = Except.ok (res, st'))
    (hs : getScenario st sid = some scn) :
    (completedThisLevel (postAttemptState st u sid res.score res.all_correct)
        u scn.level_id = true → scn.level_id < 6 →
      findUserLevel st'.userLevels u (scn.level_id + 1) =
        some ⟨u, scn.level_id + 1, true, false⟩) ∧
    (completedThisLevel (postAttemptState st u sid res.score res.all_correct)
        u scn.level_id = true → ¬scn.level_id < 6 →
      findUserLevel st'.userLevels u (scn.level_id + 1) =
        findUserLevel st.userLevels u (scn.level_id + 1)) ∧
    (completedThisLevel (postAttemptState st u sid res.score res.all_correct)
        u scn.level_id = false →
      findUserLevel st'.userLevels u (scn.level_id + 1) =
        findUserLevel st.userLevels u (scn.level_id + 1)) := by
  obtain ⟨hsc, hac, hlp, hab, hst⟩ := submit_auth_ok_elim h hs
  subst hst
  refine ⟨?_, ?_, ?_⟩
  · intro hc h6
    rw [recordSubmission_userLevels_completed_lt hc h6]
    exact findUserLevel_upsertProgress_self _ ⟨u, scn.level_id + 1, true, false⟩
  · intro hc h6
    rw [recordSubmission_userLevels_completed_ge hc h6]
    exact findUserLevel_upsertProgress_other (Nat.succ_ne_self scn.level_id)
  · intro hc
    rw [recordSubmission_userLevels_not_completed hc]
    exact findUserLevel_upsertProgress_other (Nat.succ_ne_self scn.level_id)

theorem C4_witness :
    ∃ res st', submit W1 (some 7) (some ["A", "B", "C", "D"]) 1 = Except.ok (res, st') ∧
      completedThisLevel (postAttemptState W1 7 1 res.score res.all_correct) 7 1 = true ∧
      findUserLevel st'.userLevels 7 2 = some ⟨7, 2, true, false⟩ := by
  refine ⟨_, _, rfl, by decide, ?_⟩
  exact (C4_next_level_unlock W1 7 1 ["A", "B", "C", "D"] _ _ ⟨1, 1⟩ rfl
    (by decide)).1 (by decide) (by decide)

/-- C8: on every successful authenticated submission the attempt store is
exactly the previous store with the newly computed score and all_correct
flag upserted for `(user, scenario)` — the write is unconditional and not
gated on the new score improving the stored one; the stored row afterwards
carries the fresh values. -/
theorem C8_unconditional_overwrite (st : St) (u sid : Nat) (answers : List String)
    (res : SubmitResult) (st' : St)
    (h : submit st (some u) (some answers) sid = Except.ok (res, st')) :
    st'.attempts = upsertBestScore st.attempts ⟨u, sid, res.score, res.all_correct⟩ ∧
    findAttempt st'.attempts u sid = some ⟨u, sid, res.score, res.all_correct⟩ ∧
    res.score = (grade (getStepsByScenario st sid) answers).1 := by
  obtain ⟨scn, hs, hne⟩ := submit_ok_inv h
  obtain ⟨hsc, hac, hlp, hab, hst⟩ := submit_auth_ok_elim h hs
  subst hst
  have hatt := (recordSubmission_preserves st u scn sid res.score res.all_correct).2.2.2
  refine ⟨hatt, ?_, hsc⟩
  rw [hatt]
  exact findAttempt_upsertBestScore_self st.attempts ⟨u, sid, res.score, res.all_correct⟩

theorem C8_witness :
    ∃ res st', submit W3 (some 7) (some ["B"]) 1 = Except.ok (res, st') ∧
      res.score = 0 ∧
      findAttempt W3.attempts 7 1 = some ⟨7, 1, 100, true⟩ ∧
      findAttempt st'.attempts 7 1 = some ⟨7, 1, 0, false⟩ := by
  refine ⟨_, _, rfl, by decide, by decide, ?_⟩
  exact ((C8_unconditional_overwrite W3 7 1 ["B"] _ _ rfl).2.1).trans (by decide)

/-- C10: when an authenticated submission completes a level whose id is at
or above the ceiling 6, the response's level_progress still reports
`next_level_unlocked = level_id + 1` even though the user-level row for the
next level is left untouched. -/
theorem C10_ceiling_reporting (st : St) (u sid : Nat) (answers : List String)
    (res : SubmitResult) (st' : St) (scn : Scenario)
    (h : submit st (some u) (some answers) sid = Except.ok (res, st'))
    (hs : getScenario st sid = some scn)
    (hc : completedThisLevel (postAttemptState st u sid res.score res.all_correct)
      u scn.level_id = true)
    (hL : 6 ≤ scn.level_id) :
    res.level_progress = some ⟨scn.level_id, true, some (scn.level_id + 1), none, none⟩ ∧
    findUserLevel st'.userLevels u (scn.level_id + 1) =
      findUserLevel st.userLevels u (scn.level_id + 1) := by
  obtain ⟨hsc, hac, hlp, hab, hst⟩ := submit_auth_ok_elim h hs
  subst hst
  constructor
  · rw [hlp, recordSubmission_progress_completed hc]
  · rw [recordSubmission_userLevels_completed_ge hc (by omega)]
    exact findUserLevel_upsertProgress_other (Nat.succ_ne_self scn.level_id)

theorem C10_witness :
    ∃ res st', submit W6 (some 7) (some ["A"]) 1 = Except.ok (res, st') ∧
      res.level_progress = some ⟨6, true, some 7, none, none⟩ ∧
      findUserLevel st'.userLevels 7 7 = none := by
  refine ⟨_, _, rfl, ?_, ?_⟩
  · exact (C10_ceiling_reporting W6 7 1 ["A"] _ _ ⟨1, 6⟩ rfl (by decide)
      (by decide) (by decide)).1
  · exact ((C10_ceiling_reporting W6 7 1 ["A"] _ _ ⟨1, 6⟩ rfl (by decide)
      (by decide) (by decide)).2).trans (by decide)

end ScenarioSubmit

namespace ScenarioSubmit

/-! ## User-badge counting lemmas -/

theorem countUB_eq_zero_of_find_none {l : List UserBadgeRow} {u b : Nat}
    (h : findUserBadge l u b = none) : countUB l u b = 0 := by
  unfold findUserBadge at h
  unfold countUB
  rw [List.find?_eq_none] at h
  rw [List.countP_eq_zero]
  exact fun a ha => h a ha

theorem countUB_append_single (l : List UserBadgeRow) (r : UserBadgeRow) (u b : Nat) :
    countUB (l ++ [r]) u b =
      countUB l u b + (if r.user_id = u ∧ r.badge_id = b then 1 else 0) := by
  unfold countUB
  rw [List.countP_append]
  congr 1
  by_cases h : r.user_id = u ∧ r.badge_id = b
  · simp [List.countP_cons, h.1, h.2]
  · have hp : (r.user_id == u && r.badge_id == b) = false := by
      by_cases h1 : r.user_id = u
      · by_cases h2 : r.badge_id = b
        · exact absurd ⟨h1, h2⟩ h
        · simp [h1, h2]
      · simp [h1]
    simp [List.countP_cons, hp, h]

theorem findUserBadge_append_self {l : List UserBadgeRow} {u b : Nat}
    (h : findUserBadge l u b = none) :
    findUserBadge (l ++ [⟨u, b⟩]) u b = some ⟨u, b⟩ := by
  unfold findUserBadge at h ⊢
  rw [List.find?_append, h]
  have hp : ((⟨u, b⟩ : UserBadgeRow).user_id == u &&
      (⟨u, b⟩ : UserBadgeRow).badge_id == b) = true := by simp
  have h2 : List.find? (fun r => r.user_id == u && r.badge_id == b)
      [(⟨u, b⟩ : UserBadgeRow)] = some ⟨u, b⟩ :=
    List.find?_cons_of_pos _ hp
  rw [h2]
  rfl

/-- The user-badge store after a submission: unchanged, or extended with a
single row for the submitting user whose pair was absent before. -/
theorem submit_userBadges_cases (st : St) (u sid : Nat)
    (answers? : Option (List String)) :
    (finalState st (some u) answers? sid).userBadges = st.userBadges ∨
    ∃ bid, findUserBadge st.userBadges u bid = none ∧
      (finalState st (some u) answers? sid).userBadges =
        st.userBadges ++ [⟨u, bid⟩] := by
  cases answers? with
  | none => exact Or.inl rfl
  | some answers =>
    cases hs : getScenario st sid with
    | none =>
      left
      unfold finalState
      rw [submit_no_scenario st (some u) answers sid hs]
    | some scn =>
      cases hne : (getStepsByScenario st sid).isEmpty with
      | true =>
        left
        unfold finalState
        rw [submit_no_steps st (some u) answers sid scn hs hne]
      | false =>
        have hfs : finalState st (some u) (some answers) sid =
            (recordSubmission st u scn sid
              (grade (getStepsByScenario st sid) answers).1
              (grade (getStepsByScenario st sid) answers).2).2.2 := by
          unfold finalState
          rw [submit_auth_eq st u answers sid scn hs hne]
        rw [hfs]
        cases hc : completedThisLevel
            (postAttemptState st u sid (grade (getStepsByScenario st sid) answers).1
              (grade (getStepsByScenario st sid) answers).2) u scn.level_id with
        | false => exact Or.inl (recordSubmission_userBadges_not_completed hc)
        | true =>
          rw [recordSubmission_userBadges_completed hc]
          cases hb : findBadgeByLevel st.badges scn.level_id with
          | none => exact Or.inl rfl
          | some b =>
            dsimp only
            cases hub : findUserBadge st.userBadges u b.badge_id with
            | some x => exact Or.inl rfl
            | none => exact Or.inr ⟨b.badge_id, hub, rfl⟩

/-- C3: a UserBadge row is created at most once per `(user, badge)` pair:
a submission leaves the badge count for a pair at most 1 when it was 0,
leaves it unchanged when a row already exists, never touches other users'
rows, and reports a badge as newly awarded only when no row existed —
in which case exactly one row exists afterwards.  Re-triggering completion
therefore never produces a duplicate row. -/
theorem C3_badge_award_at_most_once (st : St) (u sid : Nat)
    (answers? : Option (List String)) (b : Nat) :
    (countUB st.userBadges u b = 0 →
      countUB (finalState st (some u) answers? sid).userBadges u b ≤ 1) ∧
    (0 < countUB st.userBadges u b →
      countUB (finalState st (some u) answers? sid).userBadges u b =
        countUB st.userBadges u b) ∧
    (∀ u' b', u' ≠ u →
      countUB (finalState st (some u) answers? sid).userBadges u' b' =
        countUB st.userBadges u' b') ∧
    (∀ res st', submit st (some u) answers? sid = Except.ok (res, st') →
      ∀ ab, res.awarded_badge = some ab →
        findUserBadge st.userBadges u ab.badge_id = none ∧
        countUB st'.userBadges u ab.badge_id = 1) := by
  refine ⟨?_, ?_, ?_, ?_⟩
  · intro h0
    rcases submit_userBadges_cases st u sid answers? with hsame | ⟨bid, hnone, happ⟩
    · rw [hsame, h0]
      omega
    · rw [happ, countUB_append_single, h0]
      by_cases hbb : (⟨u, bid⟩ : UserBadgeRow).user_id = u ∧
          (⟨u, bid⟩ : UserBadgeRow).badge_id = b
      · rw [if_pos hbb]
      · rw [if_neg hbb]
        omega
  · intro hpos
    rcases submit_userBadges_cases st u sid answers? with hsame | ⟨bid, hnone, happ⟩
    · rw [hsame]
    · rw [happ, countUB_append_single]
      by_cases hbb : (⟨u, bid⟩ : UserBadgeRow).user_id = u ∧
          (⟨u, bid⟩ : UserBadgeRow).badge_id = b
      · exfalso
        have hz : countUB st.userBadges u bid = 0 := countUB_eq_zero_of_find_none hnone
        have hbb2 : bid = b := hbb.2
        rw [hbb2] at hz
        omega
      · rw [if_neg hbb]
        omega
  · intro u' b' hu'
    rcases submit_userBadges_cases st u sid answers? with hsame | ⟨bid, hnone, happ⟩
    · rw [hsame]
    · rw [happ, countUB_append_single]
      have : ¬((⟨u, bid⟩ : UserBadgeRow).user_id = u' ∧
          (⟨u, bid⟩ : UserBadgeRow).badge_id = b') := by
        rintro ⟨h1, -⟩
        exact hu' h1.symm
      rw [if_neg this]
      omega
  · intro res st' h ab hab
    cases answers? with
    | none => exact Except.noConfusion h
    | some answers =>
      obtain ⟨scn, hs, hne⟩ := submit_ok_inv h
      obtain ⟨hsc, hac, hlp, habr, hst⟩ := submit_auth_ok_elim h hs
      rw [habr] at hab
      obtain ⟨hc, bb, hbfound, habeq, hub, hubs⟩ := recordSubmission_awarded_some hab
      have hbid : ab.badge_id = bb.badge_id := by rw [habeq]
      subst hst
      constructor
      · rw [hbid]
        exact hub
      · rw [hbid, hubs, countUB_append_single,
          countUB_eq_zero_of_find_none hub, if_pos ⟨rfl, rfl⟩]

theorem C3_witness :
    countUB W1.userBadges 7 10 = 0 ∧
    countUB (finalState W1 (some 7) (some ["A", "B", "C", "D"]) 1).userBadges 7 10 ≤ 1 ∧
    0 < countUB (finalState W1 (some 7) (some ["A", "B", "C", "D"]) 1).userBadges 7 10 ∧
    countUB (finalState (finalState W1 (some 7) (some ["A", "B", "C", "D"]) 1)
        (some 7) (some ["A", "B", "C", "D"]) 1).userBadges 7 10 =
      countUB (finalState W1 (some 7) (some ["A", "B", "C", "D"]) 1).userBadges 7 10 :=
  ⟨by decide,
    (C3_badge_award_at_most_once W1 7 1 (some ["A", "B", "C", "D"]) 10).1 (by decide),
    by decide,
    (C3_badge_award_at_most_once (finalState W1 (some 7) (some ["A", "B", "C", "D"]) 1)
      7 1 (some ["A", "B", "C", "D"]) 10).2.1 (by decide)⟩

/-- C9 counterexample: the registered route applies `requireAuth`, so an
unauthenticated submission of the fully answerable scenario 1 is answered
with 401 Unauthorized and never graded — the response carries no score,
contradicting the claim that unauthenticated submissions are scored. -/
theorem C9_counterexample :
    routeSubmit W1 none (some ["A", "B", "C", "D"]) 1 = RouteResponse.unauthorized ∧
    getScenario W1 1 = some ⟨1, 1⟩ ∧
    (getStepsByScenario W1 1).isEmpty = false :=
  ⟨rfl, by decide, by decide⟩

/-- C9 (amended): the controller handler itself, when invoked without an
authenticated identity, grades and returns the computed score with the
store unchanged and with `level_progress` and `awarded_badge` omitted; but
the registered route `POST /scenarios/:id/submit` applies `requireAuth`, so
an unauthenticated HTTP submission receives 401 before the handler runs. -/
theorem C9_guest_mode_amended (st : St) (answers : List String) (sid : Nat)
    (scn : Scenario) (hs : getScenario st sid = some scn)
    (hne : (getStepsByScenario st sid).isEmpty = false) :
    submit st none (some answers) sid =
      Except.ok ({ score := (grade (getStepsByScenario st sid) answers).1,
                   all_correct := (grade (getStepsByScenario st sid) answers).2,
                   level_id := scn.level_id, scenario_id := sid,
                   level_progress := none, awarded_badge := none,
                   updated_scenario := none }, st) ∧
    routeSubmit st none (some answers) sid = RouteResponse.unauthorized :=
  ⟨submit_guest_eq st answers sid scn hs hne, rfl⟩

theorem C9_witness :
    (submit W1 none (some ["A", "B", "C", "D"]) 1 =
      Except.ok ({ score := (grade (getStepsByScenario W1 1) ["A", "B", "C", "D"]).1,
                   all_correct := (grade (getStepsByScenario W1 1) ["A", "B", "C", "D"]).2,
                   level_id := 1, scenario_id := 1,
                   level_progress := none, awarded_badge := none,
                   updated_scenario := none }, W1)) ∧
    routeSubmit W1 none (some ["A", "B", "C", "D"]) 1 = RouteResponse.unauthorized ∧
    (grade (getStepsByScenario W1 1) ["A", "B", "C", "D"]).1 = 100 :=
  ⟨(C9_guest_mode_amended W1 ["A", "B", "C", "D"] 1 ⟨1, 1⟩ (by decide) (by decide)).1,
    (C9_guest_mode_amended W1 ["A", "B", "C", "D"] 1 ⟨1, 1⟩ (by decide) (by decide)).2,
    by decide⟩

end ScenarioSubmit

namespace ScenarioSubmit

/-- Running the progression cascade a second time with the same grading
result on the store it produced leaves that store unchanged. -/
theorem recordSubmission_idem (st : St) (u : Nat) (scn : Scenario)
    (sid score : Nat) (allC : Bool) :
    (recordSubmission ((recordSubmission st u scn sid score allC).2.2)
      u scn sid score allC).2.2 =
      (recordSubmission st u scn sid score allC).2.2 := by
  have hp := recordSubmission_preserves st u scn sid score allC
  set st1 := (recordSubmission st u scn sid score allC).2.2 with hst1
  have hp2 := recordSubmission_preserves st1 u scn sid score allC
  have hidem : upsertBestScore st1.attempts ⟨u, sid, score, allC⟩ = st1.attempts := by
    rw [hp.2.2.2]
    exact upsertBy_idem attemptKey st.attempts _ (attemptKey_refl _)
  have hpost : postAttemptState st1 u sid score allC = st1 := by
    unfold postAttemptState
    rw [hidem]
  have hcomp : completedThisLevel (postAttemptState st1 u sid score allC) u scn.level_id =
      completedThisLevel (postAttemptState st u sid score allC) u scn.level_id := by
    rw [hpost]
    exact completedThisLevel_congr
      (hp.2.2.2.trans (postAttemptState_attempts st u sid score allC).symm)
      (hp.1.trans (postAttemptState_scenarios st u sid score allC).symm) u scn.level_id
  apply St_eq_of_fields
  · exact hp2.1
  · exact hp2.2.1
  · exact hp2.2.2.2.trans hidem
  · -- userLevels
    cases hcv : completedThisLevel (postAttemptState st u sid score allC) u scn.level_id with
    | false =>
      have hc2 : completedThisLevel (postAttemptState st1 u sid score allC) u scn.level_id
          = false := hcomp.trans hcv
      rw [recordSubmission_userLevels_not_completed hc2,
        recordSubmission_userLevels_not_completed hcv]
      exact upsertBy_idem userLevelKey st.userLevels _ (userLevelKey_refl _)
    | true =>
      have hc2 : completedThisLevel (postAttemptState st1 u sid score allC) u scn.level_id
          = true := hcomp.trans hcv
      by_cases h6 : scn.level_id < 6
      · have hR1 : st1.userLevels =
            upsertProgress (upsertProgress st.userLevels ⟨u, scn.level_id, true, true⟩)
              ⟨u, scn.level_id + 1, true, false⟩ :=
          recordSubmission_userLevels_completed_lt hcv h6
        have hdisLt : ∀ a, userLevelKey ⟨u, scn.level_id, true, true⟩ a = true →
            userLevelKey ⟨u, scn.level_id + 1, true, false⟩ a = false :=
          userLevelKey_disjoint (Nat.succ_ne_self scn.level_id).symm
        have hany1 : st1.userLevels.any
            (userLevelKey ⟨u, scn.level_id, true, true⟩) = true := by
          rw [hR1]
          exact any_upsertBy_other _
            (any_upsertBy userLevelKey st.userLevels _ (userLevelKey_refl _)) hdisLt
        have hall1 : ∀ a ∈ st1.userLevels,
            userLevelKey ⟨u, scn.level_id, true, true⟩ a = true →
            a = ⟨u, scn.level_id, true, true⟩ := by
          intro a ha hk
          rw [hR1] at ha
          rcases mem_upsertBy ha with hX | haN
          · exact eq_of_mem_upsertBy hX hk
          · exfalso
            subst haN
            simp [userLevelKey] at hk
        have hA : upsertProgress st1.userLevels ⟨u, scn.level_id, true, true⟩ =
            st1.userLevels := upsertProgress_eq_self hany1 hall1
        have hany2 : st1.userLevels.any
            (userLevelKey ⟨u, scn.level_id + 1, true, false⟩) = true := by
          rw [hR1]
          exact any_upsertBy userLevelKey _ _ (userLevelKey_refl _)
        have hall2 : ∀ a ∈ st1.userLevels,
            userLevelKey ⟨u, scn.level_id + 1, true, false⟩ a = true →
            a = ⟨u, scn.level_id + 1, true, false⟩ := by
          intro a ha hk
          rw [hR1] at ha
          exact eq_of_mem_upsertBy ha hk
        have hB : upsertProgress st1.userLevels ⟨u, scn.level_id + 1, true, false⟩ =
            st1.userLevels := upsertProgress_eq_self hany2 hall2
        rw [recordSubmission_userLevels_completed_lt hc2 h6, hA, hB]
      · have hR1 : st1.userLevels =
            upsertProgress st.userLevels ⟨u, scn.level_id, true, true⟩ :=
          recordSubmission_userLevels_completed_ge hcv h6
        rw [recordSubmission_userLevels_completed_ge hc2 h6, hR1]
        exact upsertBy_idem userLevelKey st.userLevels _ (userLevelKey_refl _)
  · exact hp2.2.2.1
  · -- userBadges
    cases hcv : completedThisLevel (postAttemptState st u sid score allC) u scn.level_id with
    | false =>
      have hc2 : completedThisLevel (postAttemptState st1 u sid score allC) u scn.level_id
          = false := hcomp.trans hcv
      exact recordSubmission_userBadges_not_completed hc2
    | true =>
      have hc2 : completedThisLevel (postAttemptState st1 u sid score allC) u scn.level_id
          = true := hcomp.trans hcv
      have hR1 : st1.userBadges =
          (match findBadgeByLevel st.badges scn.level_id with
           | none => st.userBadges
           | some b =>
             match findUserBadge st.userBadges u b.badge_id with
             | some _ => st.userBadges
             | none => st.userBadges ++ [⟨u, b.badge_id⟩]) :=
        recordSubmission_userBadges_completed hcv
      have hR2 := recordSubmission_userBadges_completed hc2
      rw [hp.2.2.1] at hR2
      rw [hR2]
      cases hb : findBadgeByLevel st.badges scn.level_id with
      | none => rfl
      | some b =>
        rw [hb] at hR1
        dsimp only at hR1 ⊢
        cases hub : findUserBadge st.userBadges u b.badge_id with
        | some x =>
          rw [hub] at hR1
          dsimp only at hR1
          have hfind : findUserBadge st1.userBadges u b.badge_id = some x := by
            rw [hR1]
            exact hub
          rw [hfind]
        | none =>
          rw [hub] at hR1
          dsimp only at hR1
          have hfind : findUserBadge st1.userBadges u b.badge_id = some ⟨u, b.badge_id⟩ := by
            rw [hR1]
            exact findUserBadge_append_self hub
          rw [hfind]

end ScenarioSubmit

namespace ScenarioSubmit

/-- C5: recording the same grading result twice for the same user and
scenario, with no intervening state change, is idempotent — a second
submission with the same answers succeeds and leaves the persisted store
(attempts, user levels, user badges) exactly as after the first run; in
particular no second UserBadge row is created. -/
theorem C5_idempotent_submission (st : St) (u sid : Nat) (answers : List String)
    (res : SubmitResult) (st1 : St)
    (h : submit st (some u) (some answers) sid = Except.ok (res, st1)) :
    ∃ res2, submit st1 (some u) (some answers) sid = Except.ok (res2, st1) := by
  obtain ⟨scn, hs, hne⟩ := submit_ok_inv h
  obtain ⟨hsc, hac, hlp, hab, hst⟩ := submit_auth_ok_elim h hs
  subst hst
  have hp := recordSubmission_preserves st u scn sid res.score res.all_correct
  have hs1 : getScenario (recordSubmission st u scn sid res.score res.all_correct).2.2 sid =
      some scn := by
    unfold getScenario
    rw [hp.1]
    exact hs
  have hsteps1 : getStepsByScenario
      (recordSubmission st u scn sid res.score res.all_correct).2.2 sid =
      getStepsByScenario st sid := by
    unfold getStepsByScenario
    rw [hp.2.1]
  have hne1 : (getStepsByScenario
      (recordSubmission st u scn sid res.score res.all_correct).2.2 sid).isEmpty = false := by
    rw [hsteps1]
    exact hne
  have key := submit_auth_eq
    ((recordSubmission st u scn sid res.score res.all_correct).2.2) u answers sid scn hs1 hne1
  rw [hsteps1, ← hsc, ← hac,
    recordSubmission_idem st u scn sid res.score res.all_correct] at key
  exact ⟨_, key⟩

theorem C5_witness :
    ∃ res st1, submit W1 (some 7) (some ["A", "B", "C", "D"]) 1 = Except.ok (res, st1) ∧
      ∃ res2, submit st1 (some 7) (some ["A", "B", "C", "D"]) 1 = Except.ok (res2, st1) := by
  refine ⟨_, _, rfl, ?_⟩
  exact C5_idempotent_submission W1 7 1 ["A", "B", "C", "D"] _ _ rfl

end ScenarioSubmit
